import Mathlib

/-!
Shallow embedding of the file-selection, tree-rendering, content-fetch and
summarizer-output-validation logic of the `ai-nebius-git-summarize` repository
(src/app/utils/file_filter.py, src/app/services/github_client.py,
src/app/services/llm_summarizer.py and src/_v1-claude-code-pure/main.py),
together with theorems settling the frozen claims about it.

Python strings are modelled by Lean `String`; the Python string operations
used by the source (split, rfind, lower, upper, startswith, endswith,
substring membership, count, slicing) are modelled by explicit executable
functions over the character list `String.data`, which matches Python
semantics on code points (case mapping is modelled for ASCII, which covers
every constant the source compares against).
-/

namespace GitSummarize

/-! ### String helpers (models of the Python string operations) -/

/-- Model of Python `s.split(sep)` for a one-character separator, on
character lists: always returns at least one (possibly empty) piece. -/
def splitChar (sep : Char) : List Char → List (List Char)
  | [] => [[]]
  | c :: cs =>
    let rest := splitChar sep cs
    if c = sep then [] :: rest
    else
      match rest with
      | [] => [[c]]
      | r :: rs => (c :: r) :: rs

/-- Python `path.split("/")`. -/
def splitSlash (path : String) : List String :=
  (splitChar '/' path.data).map String.mk

/-- Python `s.upper()` (ASCII case mapping). -/
def strUpper (s : String) : String := String.mk (s.data.map Char.toUpper)

/-- Python `s.lower()` (ASCII case mapping). -/
def strLower (s : String) : String := String.mk (s.data.map Char.toLower)

/-- Python `s.startswith(pre)`. -/
def strStartsWith (s pre : String) : Bool := pre.data.isPrefixOf s.data

/-- Python `s.endswith(suf)`. -/
def strEndsWith (s suf : String) : Bool := suf.data.isSuffixOf s.data

/-- Helper for substring membership: does `sub` occur inside the list? -/
def infixIn (sub : List Char) : List Char → Bool
  | [] => sub.isPrefixOf []
  | c :: cs => sub.isPrefixOf (c :: cs) || infixIn sub cs

/-- Python `sub in s` for strings. -/
def hasSub (s sub : String) : Bool := infixIn sub.data s.data

/-- Python `filename[dot_idx:]` where `dot_idx = filename.rfind(".")`: the
suffix starting at the last dot, or `""` when there is no dot (the callers
guard on `dot_idx != -1`, modelled by the `contains` test here). -/
def extOf (filename : String) : String :=
  if filename.data.contains '.' then
    String.mk ('.' :: (filename.data.reverse.takeWhile (fun c => c != '.')).reverse)
  else ""

/-! ### src/app/utils/file_filter.py : constants -/

def PRIORITY_TIER1 : Nat := 1
def PRIORITY_TIER2 : Nat := 2
def PRIORITY_TIER3 : Nat := 3
def PRIORITY_TIER4 : Nat := 4
def PRIORITY_SKIP : Nat := 99

/-- Directories to completely skip (Python set, used only for membership). -/
def EXCLUDED_DIRS : List String :=
  ["node_modules", "vendor", ".git", "dist", "build", "__pycache__",
   ".venv", "venv", "env", ".idea", ".vscode", ".tox", ".mypy_cache",
   ".pytest_cache", ".next", ".nuxt", "target", "bin", "obj",
   "coverage", ".coverage", "htmlcov", ".eggs", ".gradle",
   ".terraform", ".serverless"]

/-- File extensions to skip (binary/generated). -/
def EXCLUDED_EXTENSIONS : List String :=
  [".png", ".jpg", ".jpeg", ".gif", ".ico", ".svg", ".bmp", ".webp",
   ".woff", ".woff2", ".ttf", ".eot", ".otf",
   ".mp3", ".mp4", ".avi", ".mov", ".wav",
   ".zip", ".tar", ".gz", ".bz2", ".rar", ".7z",
   ".pdf", ".doc", ".docx", ".xls", ".xlsx",
   ".exe", ".dll", ".so", ".dylib", ".pyc", ".pyo", ".class", ".o",
   ".wasm", ".sqlite", ".db", ".map"]

/-- Specific filenames to skip (lock files, generated). -/
def EXCLUDED_FILENAMES : List String :=
  ["package-lock.json", "yarn.lock", "poetry.lock", "Cargo.lock",
   "Gemfile.lock", "composer.lock", "go.sum", "pnpm-lock.yaml",
   "npm-shrinkwrap.json", ".DS_Store", "Thumbs.db"]

/-- Tier 1: README and top-level docs (highest priority). -/
def TIER1_FILENAMES : List String :=
  ["README.md", "README.rst", "README.txt", "README"]

/-- Tier 2: Config/manifest files. -/
def TIER2_FILENAMES : List String :=
  ["package.json", "pyproject.toml", "setup.py", "setup.cfg",
   "Cargo.toml", "go.mod", "pom.xml", "build.gradle", "build.gradle.kts",
   "Makefile", "CMakeLists.txt", "Dockerfile", "docker-compose.yml",
   "docker-compose.yaml", "requirements.txt", "Gemfile", "Pipfile",
   "tsconfig.json", "tox.ini", ".eslintrc.json", ".eslintrc.js",
   "webpack.config.js", "vite.config.ts", "vite.config.js",
   "next.config.js", "next.config.mjs"]

/-- Tier 2: Directory patterns for config files. -/
def TIER2_DIR_PATTERNS : List String :=
  [".github/workflows/"]

/-- Tier 3: Entry point filenames (higher priority within tier 3). -/
def TIER3_ENTRY_POINTS : List String :=
  ["main.py", "app.py", "index.ts", "index.js", "main.ts", "main.js",
   "server.py", "server.ts", "server.js", "main.go", "main.rs",
   "lib.rs", "mod.rs", "index.py"]

/-- Source code extensions. -/
def SOURCE_EXTENSIONS : List String :=
  [".py", ".js", ".ts", ".jsx", ".tsx", ".go", ".rs", ".java",
   ".kt", ".rb", ".php", ".c", ".cpp", ".h", ".hpp", ".cs",
   ".swift", ".scala", ".clj", ".ex", ".exs", ".hs", ".lua",
   ".r", ".R", ".jl", ".sh", ".bash", ".zsh", ".fish",
   ".yaml", ".yml", ".toml", ".json", ".xml", ".html", ".css",
   ".scss", ".less", ".sql", ".graphql", ".proto", ".tf",
   ".md", ".rst", ".txt"]

/-! ### src/app/utils/file_filter.py : functions -/

/-- `should_exclude_path` (file_filter.py lines 86-116): check if a file path
should be excluded from analysis. -/
def should_exclude_path (path : String) : Bool :=
  let parts := splitSlash path
  -- Check directory exclusions: all parts except the filename
  if parts.dropLast.any (fun part => EXCLUDED_DIRS.contains part) then true
  else
    let filename := parts.getLastD ""
    -- Check excluded filenames
    if EXCLUDED_FILENAMES.contains filename then true
    -- Check excluded extensions (guarded by `dot_idx != -1` in the source)
    else if filename.data.contains '.'
        && EXCLUDED_EXTENSIONS.contains (strLower (extOf filename)) then true
    -- Check minified files
    else if strEndsWith filename ".min.js" || strEndsWith filename ".min.css" then true
    -- Check chunk files
    else if hasSub filename ".chunk." then true
    else false

/-- `get_file_priority` (file_filter.py lines 119-160): priority tier for a
file (lower number = higher priority). -/
def get_file_priority (path : String) : Nat :=
  let parts := splitSlash path
  let filename := parts.getLastD ""
  -- Tier 1: README
  if strStartsWith (strUpper filename) "README" then PRIORITY_TIER1
  -- Tier 2: Config/manifest files
  else if TIER2_FILENAMES.contains filename then PRIORITY_TIER2
  -- Tier 2: GitHub workflows and similar config dirs
  else if TIER2_DIR_PATTERNS.any (fun pattern => strStartsWith path pattern) then
    PRIORITY_TIER2
  else
    -- Check if it is a source file at all
    let ext := strLower (extOf filename)
    if !(SOURCE_EXTENSIONS.contains ext) && !(TIER3_ENTRY_POINTS.contains filename) then
      PRIORITY_SKIP
    else
      -- Tier 4: Test files (lower priority than regular source)
      let lowerPath := strLower path
      if hasSub lowerPath "/test" || hasSub lowerPath "/tests" || hasSub lowerPath "/spec"
          || strStartsWith filename "test_"
          || strEndsWith filename "_test.py"
          || strEndsWith filename ".test.js" || strEndsWith filename ".test.ts"
          || strEndsWith filename ".spec.js" || strEndsWith filename ".spec.ts" then
        PRIORITY_TIER4
      -- Tier 3: Regular source files
      else PRIORITY_TIER3

/-- One entry of the `files` argument of `rank_and_select_files`: a dict with
"path" and "size" keys (`f.get("size", 0)` always yields a number, modelled
as a total `size` field). -/
structure FileInfo where
  path : String
  size : Nat
deriving DecidableEq, Repr

/-- `_sort_key` (file_filter.py lines 163-172):
`(priority, is_entry, depth, size)`. -/
def sortKey (f : FileInfo) : Nat × Nat × Nat × Nat :=
  (get_file_priority f.path,
   if TIER3_ENTRY_POINTS.contains ((splitSlash f.path).getLastD "") then 0 else 1,
   f.path.data.count '/',
   f.size)

/-- Lexicographic order on the 4-component sort key, the order Python's tuple
comparison uses for `list.sort(key=_sort_key)`. -/
def lex4 (x y : Nat × Nat × Nat × Nat) : Prop :=
  x.1 < y.1 ∨ (x.1 = y.1 ∧ (x.2.1 < y.2.1 ∨ (x.2.1 = y.2.1 ∧
    (x.2.2.1 < y.2.2.1 ∨ (x.2.2.1 = y.2.2.1 ∧ x.2.2.2 ≤ y.2.2.2)))))

/-- The total preorder `_sort_key f ≤ _sort_key g` used by the sort. -/
def keyLe (a b : FileInfo) : Prop := lex4 (sortKey a) (sortKey b)

instance : DecidableRel keyLe := fun a b => by
  unfold keyLe lex4; exact inferInstance

instance : IsTotal FileInfo keyLe := by
  constructor; intro a b; unfold keyLe lex4; omega

instance : IsTrans FileInfo keyLe := by
  constructor; intro a b c; unfold keyLe lex4; omega

theorem keyLe_of_eq {a b : FileInfo} (h : sortKey a = sortKey b) : keyLe a b := by
  unfold keyLe lex4; rw [h]; omega

/-- The two eligibility filters of `rank_and_select_files`
(file_filter.py lines 187-191). -/
def eligibleFiles (files : List FileInfo) : List FileInfo :=
  ((files.filter fun f => !(should_exclude_path f.path)).filter
    fun f => get_file_priority f.path != PRIORITY_SKIP)

/-- `eligible.sort(key=_sort_key)` (file_filter.py line 194): Python list
sort is the unique stable sort by the key order, realized here by insertion
sort over the decidable total preorder `keyLe`. -/
def sortedEligible (files : List FileInfo) : List FileInfo :=
  List.insertionSort keyLe (eligibleFiles files)

/-- The selection loop of `rank_and_select_files` (file_filter.py lines
197-204), mirroring the Python loop: `selected` is the accumulator the
source appends to, `totalChars` the running total. -/
def selectLoopAcc (maxChars : Nat) :
    List FileInfo → Nat → List FileInfo → List FileInfo
  | [], _, selected => selected
  | f :: rest, totalChars, selected =>
    if totalChars + f.size > maxChars ∧ selected ≠ [] then
      -- Skip but keep trying smaller files
      selectLoopAcc maxChars rest totalChars selected
    else
      selectLoopAcc maxChars rest (totalChars + f.size) (selected ++ [f])

/-- `rank_and_select_files` (file_filter.py lines 175-206): rank files by
priority and select within character budget. -/
def rank_and_select_files (files : List FileInfo) (maxChars : Nat) : List FileInfo :=
  selectLoopAcc maxChars (sortedEligible files) 0 []

/-- Total size of a list of entries (the running `total_chars` over it). -/
def sumSizes (l : List FileInfo) : Nat := (l.map (fun f => f.size)).sum

/-- The selection loop with the accumulator replaced by the one bit of it the
loop condition reads (`and selected`, Python truthiness = non-emptiness),
emitting the output in order. -/
def selectGo (maxChars : Nat) : List FileInfo → Nat → Bool → List FileInfo
  | [], _, _ => []
  | f :: rest, totalChars, hasSel =>
    if totalChars + f.size > maxChars ∧ hasSel = true then
      selectGo maxChars rest totalChars hasSel
    else
      f :: selectGo maxChars rest (totalChars + f.size) true

theorem selectLoopAcc_eq_go (maxChars : Nat) :
    ∀ (l : List FileInfo) (total : Nat) (selected : List FileInfo),
      selectLoopAcc maxChars l total selected
        = selected ++ selectGo maxChars l total (!selected.isEmpty) := by
  intro l
  induction l with
  | nil => intro total selected; simp [selectLoopAcc, selectGo]
  | cons f rest ih =>
    intro total selected
    by_cases hgt : total + f.size > maxChars
    · cases selected with
      | nil =>
        simp only [selectLoopAcc, selectGo, List.isEmpty_nil, Bool.not_true,
          List.nil_append]
        rw [if_neg (by simp), if_neg (by simp), ih]
        simp
      | cons s ss =>
        simp only [selectLoopAcc, selectGo, List.isEmpty_cons, Bool.not_false]
        rw [if_pos ⟨hgt, by simp⟩, if_pos ⟨hgt, by trivial⟩, ih]
        simp
    · simp only [selectLoopAcc, selectGo]
      rw [if_neg (by omega), if_neg (by intro h; exact hgt h.1), ih]
      cases selected <;> simp

theorem rank_eq_go (files : List FileInfo) (maxChars : Nat) :
    rank_and_select_files files maxChars
      = selectGo maxChars (sortedEligible files) 0 false := by
  unfold rank_and_select_files
  rw [selectLoopAcc_eq_go]
  simp

theorem selectGo_sublist (maxChars : Nat) :
    ∀ (l : List FileInfo) (total : Nat) (hasSel : Bool),
      List.Sublist (selectGo maxChars l total hasSel) l := by
  intro l
  induction l with
  | nil => intro total hasSel; simp [selectGo]
  | cons f rest ih =>
    intro total hasSel
    simp only [selectGo]
    split
    · exact (ih total hasSel).trans (List.sublist_cons_self f rest)
    · exact (ih (total + f.size) true).cons₂ f

theorem selectGo_nil_of_gt (maxChars : Nat) :
    ∀ (l : List FileInfo) (total : Nat), maxChars < total →
      selectGo maxChars l total true = [] := by
  intro l
  induction l with
  | nil => intro total _; simp [selectGo]
  | cons f rest ih =>
    intro total h
    simp only [selectGo]
    rw [if_pos ⟨by omega, by trivial⟩]
    exact ih total h

theorem selectGo_budget (maxChars : Nat) :
    ∀ (l : List FileInfo) (total : Nat), total ≤ maxChars →
      total + sumSizes (selectGo maxChars l total true) ≤ maxChars := by
  intro l
  induction l with
  | nil => intro total h; simpa [selectGo, sumSizes] using h
  | cons f rest ih =>
    intro total h
    simp only [selectGo]
    by_cases hgt : total + f.size > maxChars
    · rw [if_pos ⟨hgt, by trivial⟩]; exact ih total h
    · rw [if_neg (by intro hc; exact hgt hc.1)]
      have := ih (total + f.size) (by omega)
      simp only [sumSizes, List.map_cons, List.sum_cons] at this ⊢
      omega


/-! ### Stability of the sort -/

theorem filter_key_orderedInsert (k : Nat × Nat × Nat × Nat) (a : FileInfo) :
    ∀ l : List FileInfo,
      (List.orderedInsert keyLe a l).filter (fun f => decide (sortKey f = k))
      = if sortKey a = k then
          a :: l.filter (fun f => decide (sortKey f = k))
        else l.filter (fun f => decide (sortKey f = k)) := by
  intro l
  induction l with
  | nil =>
    by_cases ha : sortKey a = k <;> simp [List.orderedInsert, List.filter, ha]
  | cons b l ih =>
    simp only [List.orderedInsert]
    by_cases hab : keyLe a b
    · rw [if_pos hab]
      by_cases ha : sortKey a = k <;> simp [List.filter_cons, ha]
    · rw [if_neg hab, List.filter_cons, ih]
      by_cases hb : sortKey b = k
      · have ha : ¬ sortKey a = k := fun ha => hab (keyLe_of_eq (ha.trans hb.symm))
        simp [ha, hb, List.filter_cons]
      · by_cases ha : sortKey a = k <;> simp [ha, hb, List.filter_cons]

theorem filter_key_insertionSort (k : Nat × Nat × Nat × Nat) :
    ∀ l : List FileInfo,
      (List.insertionSort keyLe l).filter (fun f => decide (sortKey f = k))
      = l.filter (fun f => decide (sortKey f = k)) := by
  intro l
  induction l with
  | nil => rfl
  | cons a l ih =>
    simp only [List.insertionSort]
    rw [filter_key_orderedInsert, ih]
    by_cases ha : sortKey a = k <;> simp [ha, List.filter_cons]

/-! ### Claims C1, C2, C4, C9 about `rank_and_select_files` -/

/-- C1: for every list of entries and every positive budget `B`, with the
eligible entries in sorted order, if the first candidate alone has size
exceeding `B` then exactly that one entry is returned; otherwise the sum of
the sizes of all returned entries is at most `B` (over-budget candidates are
skipped, the walk continuing past them, which the budget bound covers). -/
theorem C1_budget_dichotomy (files : List FileInfo) (B : Nat) (hB : 0 < B)
    (f : FileInfo) (hhead : (sortedEligible files).head? = some f) :
    (B < f.size → rank_and_select_files files B = [f]) ∧
    (f.size ≤ B → sumSizes (rank_and_select_files files B) ≤ B) := by
  obtain ⟨rest, hrest⟩ : ∃ rest, sortedEligible files = f :: rest := by
    cases h : sortedEligible files with
    | nil => rw [h] at hhead; simp at hhead
    | cons g r =>
      rw [h] at hhead
      simp only [List.head?_cons, Option.some_inj] at hhead
      exact ⟨r, by rw [hhead]⟩
  rw [rank_eq_go, hrest]
  constructor
  · intro hover
    simp only [selectGo]
    rw [if_neg (by simp)]
    rw [selectGo_nil_of_gt B rest (0 + f.size) (by omega)]
  · intro hle
    simp only [selectGo]
    rw [if_neg (by simp)]
    have hbud := selectGo_budget B rest (0 + f.size) (by omega)
    simp only [sumSizes, List.map_cons, List.sum_cons] at hbud ⊢
    omega

def c1Files : List FileInfo := [⟨"README.md", 5⟩]

/-- Witness for C1 at a concrete input: one eligible entry of size 5 and
budget 3, so the first candidate alone exceeds the budget. -/
theorem C1_budget_dichotomy_witness :
    (3 < FileInfo.size ⟨"README.md", 5⟩ →
      rank_and_select_files c1Files 3 = [⟨"README.md", 5⟩]) ∧
    (FileInfo.size ⟨"README.md", 5⟩ ≤ 3 →
      sumSizes (rank_and_select_files c1Files 3) ≤ 3) :=
  C1_budget_dichotomy c1Files 3 (by decide) ⟨"README.md", 5⟩ (by decide)

/-- C2: for every non-empty eligible set and positive budget the selection is
non-empty, and for the empty eligible set it is empty with zero consumed
budget. -/
theorem C2_at_least_one (files : List FileInfo) (B : Nat) (hB : 0 < B) :
    (eligibleFiles files ≠ [] → rank_and_select_files files B ≠ []) ∧
    (eligibleFiles files = [] →
      rank_and_select_files files B = [] ∧
      sumSizes (rank_and_select_files files B) = 0) := by
  constructor
  · intro hne
    rw [rank_eq_go]
    cases h : sortedEligible files with
    | nil =>
      exfalso
      apply hne
      have hp := List.perm_insertionSort keyLe (eligibleFiles files)
      unfold sortedEligible at h
      rw [h] at hp
      exact (hp.symm.eq_nil)
    | cons g r =>
      simp only [selectGo]
      rw [if_neg (by simp)]
      simp
  · intro he
    have h : sortedEligible files = [] := by
      unfold sortedEligible; rw [he]; rfl
    rw [rank_eq_go, h]
    simp [selectGo, sumSizes]

def c2Files : List FileInfo := [⟨"README.md", 5⟩, ⟨"assets/logo.png", 7⟩]

/-- Witness for C2 at a concrete input: one eligible entry (the png is
excluded), budget 10. -/
theorem C2_at_least_one_witness :
    (eligibleFiles c2Files ≠ [] → rank_and_select_files c2Files 10 ≠ []) ∧
    (eligibleFiles c2Files = [] →
      rank_and_select_files c2Files 10 = [] ∧
      sumSizes (rank_and_select_files c2Files 10) = 0) :=
  C2_at_least_one c2Files 10 (by decide)

/-- C4: the returned sequence is ordered ascending by the sort key
`(priority_tier, not-entry-point-flag, path_depth, size_bytes)` under the
lexicographic order `keyLe`, and among entries of equal key the original
relative order of the input list is preserved (the filtered subsequence at
any fixed key value is a sublist of the input filtered at that key), so
selection is deterministic for a fixed input. -/
theorem C4_sorted_and_stable (files : List FileInfo) (B : Nat)
    (k : Nat × Nat × Nat × Nat) :
    List.Pairwise keyLe (rank_and_select_files files B) ∧
    List.Sublist
      ((rank_and_select_files files B).filter (fun f => decide (sortKey f = k)))
      (files.filter (fun f => decide (sortKey f = k))) := by
  have hsub : List.Sublist (rank_and_select_files files B) (sortedEligible files) := by
    rw [rank_eq_go]; exact selectGo_sublist B _ 0 false
  constructor
  · have hs : List.Pairwise keyLe (sortedEligible files) :=
      List.sorted_insertionSort keyLe (eligibleFiles files)
    exact hs.sublist hsub
  · have h1 := hsub.filter (fun f => decide (sortKey f = k))
    have h2 : (sortedEligible files).filter (fun f => decide (sortKey f = k))
        = (eligibleFiles files).filter (fun f => decide (sortKey f = k)) := by
      unfold sortedEligible
      exact filter_key_insertionSort k (eligibleFiles files)
    rw [h2] at h1
    have h3 : List.Sublist (eligibleFiles files) files := by
      unfold eligibleFiles
      exact (List.filter_sublist _).trans (List.filter_sublist _)
    exact h1.trans (h3.filter _)

/-- C9: every entry returned by `rank_and_select_files` passes both
eligibility conditions, whatever the input list contains (the function
filters internally; its caller in `fetch_repo_data` passes the raw list of
all blob entries). -/
theorem C9_selected_eligible (files : List FileInfo) (B : Nat) (f : FileInfo)
    (h : f ∈ rank_and_select_files files B) :
    should_exclude_path f.path = false ∧
    get_file_priority f.path ≠ PRIORITY_SKIP := by
  rw [rank_eq_go] at h
  have h1 : f ∈ sortedEligible files :=
    (selectGo_sublist B (sortedEligible files) 0 false).subset h
  have h2 : f ∈ eligibleFiles files :=
    (List.perm_insertionSort keyLe (eligibleFiles files)).subset h1
  unfold eligibleFiles at h2
  rw [List.mem_filter] at h2
  obtain ⟨h3, h4⟩ := h2
  rw [List.mem_filter] at h3
  obtain ⟨_, h5⟩ := h3
  constructor
  · simpa using h5
  · simpa using h4

/-- Witness for C9 at a concrete input: the entry "README.md" is selected
from a list that also contains an excluded lock file and a Skip-tier file. -/
theorem C9_selected_eligible_witness :
    should_exclude_path (FileInfo.path ⟨"README.md", 10⟩) = false ∧
    get_file_priority (FileInfo.path ⟨"README.md", 10⟩) ≠ PRIORITY_SKIP :=
  C9_selected_eligible
    [⟨"yarn.lock", 3⟩, ⟨"README.md", 10⟩, ⟨"data.bin", 4⟩] 100
    ⟨"README.md", 10⟩ (by decide)

/-! ### Claims C3 and C5 about `get_file_priority` -/

/-- C5: the example chain is assigned Tiers 1, 2, 3, 4 and each priority
value is strictly below the next, with Skip strictly below Tier 4. -/
theorem C5_tier_chain :
    get_file_priority "README.md" = PRIORITY_TIER1 ∧
    get_file_priority "package.json" = PRIORITY_TIER2 ∧
    get_file_priority "src/app.py" = PRIORITY_TIER3 ∧
    get_file_priority "tests/test_app.py" = PRIORITY_TIER4 ∧
    get_file_priority "README.md" < get_file_priority "package.json" ∧
    get_file_priority "package.json" < get_file_priority "src/app.py" ∧
    get_file_priority "src/app.py" < get_file_priority "tests/test_app.py" ∧
    get_file_priority "tests/test_app.py" < PRIORITY_SKIP := by decide

/-- C3 counterexample: the filename "READMES" receives Tier 1 although it
matches no canonical README name, not even case-normalized: the code tests
`filename.upper().startswith("README")`, not membership in
`TIER1_FILENAMES`. -/
theorem C3_counterexample :
    get_file_priority "READMES" = PRIORITY_TIER1 ∧
    TIER1_FILENAMES.contains "READMES" = false ∧
    TIER1_FILENAMES.all (fun n => strUpper n != strUpper "READMES") = true := by
  decide

/-- C3 as amended: Tier 1 is assigned exactly when the upper-cased filename
starts with "README" — a superset of the canonical README names. -/
theorem C3_tier1_iff_readme_upper (path : String) :
    get_file_priority path = PRIORITY_TIER1 ↔
    strStartsWith (strUpper ((splitSlash path).getLastD "")) "README" = true := by
  unfold get_file_priority
  by_cases h : strStartsWith (strUpper ((splitSlash path).getLastD "")) "README" = true
  · rw [if_pos h]
    exact iff_of_true rfl h
  · rw [if_neg h]
    simp only [h, iff_false]
    split
    · decide
    · split
      · decide
      · split
        · decide
        · split
          · decide
          · decide

/-! ### src/app/services/github_client.py : per-file content fetch
(fetch_repo_data lines 160-185) -/

/-- Outcome of one `client.get(raw_url)` round trip for a path: either an
HTTP response with a status code and body text, or a raised
`httpx.TimeoutException` / `httpx.HTTPError`. The network is a parameter
(an oracle from path to outcome); everything after the response is the
code under verification. -/
inductive FetchOutcome where
  | status (code : Nat) (text : String)
  | exn
deriving DecidableEq

/-- The per-file truncation of fetch_repo_data lines 172-174: Python
`text[:50_000]` keeps the first 50000 characters, then the fixed marker is
appended; shorter texts pass through unchanged. -/
def truncateContent (text : String) : String :=
  if 50000 < text.length then
    String.mk (text.data.take 50000) ++ "\n\n... [truncated]"
  else text

/-- The fetch loop of fetch_repo_data lines 162-179: build `file_contents`
in selection order; a non-200 status or a raised exception only appends the
path to `failed_downloads` (which the function never reads afterwards), so
the failing path is omitted and the loop continues. -/
def fetchLoop (oracle : String → FetchOutcome) : List FileInfo → List (String × String)
  | [] => []
  | f :: rest =>
    match oracle f.path with
    | .status 200 text => (f.path, truncateContent text) :: fetchLoop oracle rest
    | .status _ _ => fetchLoop oracle rest
    | .exn => fetchLoop oracle rest

/-- `GitHubClientError` (github_client.py lines 22-28). -/
structure GitHubClientError where
  message : String
  status_code : Nat
deriving DecidableEq

/-- The error raised by fetch_repo_data lines 181-185 when both the content
mapping and the directory tree are empty (the spec's `EmptyResult`). -/
def emptyResultError : GitHubClientError :=
  ⟨"Repository appears empty or has no analyzable files", 422⟩

/-- The tail of `fetch_repo_data` (lines 160-197) after the selected files
are fixed: run the fetch loop, then raise `EmptyResult` exactly when the
content mapping and the rendered directory tree are both empty, else return
the mapping. -/
def fetchPhase (oracle : String → FetchOutcome) (selected : List FileInfo)
    (directoryTree : String) : Except GitHubClientError (List (String × String)) :=
  let contents := fetchLoop oracle selected
  if contents = [] ∧ directoryTree = "" then .error emptyResultError
  else .ok contents

/-- Did the fetch of this path succeed (HTTP 200)? -/
def isOk200 : FetchOutcome → Bool
  | .status 200 _ => true
  | _ => false

theorem isOk200_iff (o : FetchOutcome) :
    isOk200 o = true ↔ ∃ text, o = .status 200 text := by
  unfold isOk200
  split
  · rename_i text
    simp
  · rename_i hne
    constructor
    · intro h
      cases h
    · rintro ⟨text, rfl⟩
      exact (hne text rfl).elim

theorem fetchLoop_cons_ok {oracle : String → FetchOutcome} {f : FileInfo}
    {text : String} (rest : List FileInfo) (h : oracle f.path = .status 200 text) :
    fetchLoop oracle (f :: rest)
      = (f.path, truncateContent text) :: fetchLoop oracle rest := by
  simp [fetchLoop, h]

theorem fetchLoop_cons_fail {oracle : String → FetchOutcome} {f : FileInfo}
    (rest : List FileInfo) (h : isOk200 (oracle f.path) = false) :
    fetchLoop oracle (f :: rest) = fetchLoop oracle rest := by
  simp only [fetchLoop]
  split
  · rename_i heq
    rw [heq] at h
    cases h
  · rfl
  · rfl

/-- C7: per-file fetch failures are swallowed locally: the content mapping
holds exactly the successfully fetched paths, in order (failing paths are
omitted and the remaining fetches proceed); the only top-level error is
`EmptyResult`, raised exactly when the content mapping is empty and the
rendered directory tree is empty. -/
theorem C7_fetch_failures_swallowed (oracle : String → FetchOutcome)
    (selected : List FileInfo) (directoryTree : String) :
    (fetchLoop oracle selected).map Prod.fst
      = (selected.filter (fun f => isOk200 (oracle f.path))).map FileInfo.path ∧
    (fetchPhase oracle selected directoryTree = .error emptyResultError ↔
      fetchLoop oracle selected = [] ∧ directoryTree = "") ∧
    (fetchPhase oracle selected directoryTree = .ok (fetchLoop oracle selected) ∨
      fetchPhase oracle selected directoryTree = .error emptyResultError) := by
  refine ⟨?_, ?_, ?_⟩
  · induction selected with
    | nil => rfl
    | cons f rest ih =>
      rw [List.filter_cons]
      cases hok : isOk200 (oracle f.path) with
      | true =>
        obtain ⟨text, htext⟩ := (isOk200_iff (oracle f.path)).mp hok
        rw [fetchLoop_cons_ok rest htext]
        simp [ih]
      | false =>
        rw [fetchLoop_cons_fail rest hok]
        simp [ih]
  · unfold fetchPhase
    by_cases h : fetchLoop oracle selected = [] ∧ directoryTree = ""
    · rw [if_pos h]
      simp [h]
    · rw [if_neg h]
      simp [h]
  · unfold fetchPhase
    by_cases h : fetchLoop oracle selected = [] ∧ directoryTree = ""
    · rw [if_pos h]; right; rfl
    · rw [if_neg h]; left; rfl

/-- C10: every value stored in the content mapping is the truncation of a
successfully fetched text: texts longer than 50000 characters are cut to
the first 50000 with the fixed marker appended, shorter texts are stored
unchanged, so every stored value has length at most 50000 plus the marker
length. -/
theorem C10_per_file_truncation (oracle : String → FetchOutcome)
    (selected : List FileInfo) (p v : String)
    (h : (p, v) ∈ fetchLoop oracle selected) :
    (∃ text, oracle p = .status 200 text ∧ v = truncateContent text ∧
      (text.length ≤ 50000 → v = text)) ∧
    v.length ≤ 50000 + ("\n\n... [truncated]" : String).length := by
  induction selected with
  | nil => cases h
  | cons f rest ih =>
    cases hok : isOk200 (oracle f.path) with
    | false =>
      rw [fetchLoop_cons_fail rest hok] at h
      exact ih h
    | true =>
      obtain ⟨text, htext⟩ := (isOk200_iff (oracle f.path)).mp hok
      rw [fetchLoop_cons_ok rest htext] at h
      rcases List.mem_cons.mp h with heq | hmem
      · have hp : p = f.path := congrArg Prod.fst heq
        have hv : v = truncateContent text := congrArg Prod.snd heq
        refine ⟨⟨text, by rw [hp, htext], hv, ?_⟩, ?_⟩
        · intro hshort
          rw [hv]
          unfold truncateContent
          rw [if_neg (by omega)]
        · rw [hv]
          unfold truncateContent
          by_cases hlong : 50000 < text.length
          · rw [if_pos hlong]
            cases text with
            | mk l =>
              show (l.take 50000 ++ ("\n\n... [truncated]" : String).data).length ≤ _
              rw [List.length_append, List.length_take]
              have hm : ("\n\n... [truncated]" : String).length
                  = ("\n\n... [truncated]" : String).data.length := rfl
              omega
          · rw [if_neg hlong]
            omega
      · exact ih hmem

/-- Witness for C10 at a concrete input: a 5-character body fetched with
status 200 is stored unchanged. -/
theorem C10_per_file_truncation_witness :
    (∃ text, (fun _ : String => FetchOutcome.status 200 "hello") "a.py"
        = .status 200 text ∧ "hello" = truncateContent text ∧
        (text.length ≤ 50000 → ("hello" : String) = text)) ∧
    ("hello" : String).length ≤ 50000 + ("\n\n... [truncated]" : String).length :=
  C10_per_file_truncation (fun _ => FetchOutcome.status 200 "hello")
    [⟨"a.py", 5⟩] "a.py" "hello" (by decide)

/-! ### Directory tree renderers: `build_directory_tree`
(src/app/services/github_client.py lines 48-69) and `build_tree_string`
(src/_v1-claude-code-pure/main.py lines 203-228) -/

/-- Python `<` on characters: comparison by code point. -/
def charLtB (a b : Char) : Bool := Nat.blt a.toNat b.toNat

/-- Python `<=` on strings as character lists: lexicographic by code point. -/
def listLexLe : List Char → List Char → Bool
  | [], _ => true
  | _ :: _, [] => false
  | a :: as, b :: bs =>
    if charLtB a b then true
    else if charLtB b a then false
    else listLexLe as bs

/-- Python `<=` on strings. -/
def pyStrLe (a b : String) : Prop := listLexLe a.data b.data = true

instance : DecidableRel pyStrLe := fun a b => by unfold pyStrLe; infer_instance

/-- Python `sorted(paths)`: the stable ascending sort by lexicographic
string comparison, realized by insertion sort over `pyStrLe`. -/
def pySortedStrings (paths : List String) : List String :=
  List.insertionSort pyStrLe paths

/-- Python `"  " * i`. -/
def repeatStr (s : String) (n : Nat) : String := String.join (List.replicate n s)

/-- The inner loop of `build_directory_tree` (github_client.py lines 59-64):
for index `i`, add the parent directory `"/".join(parts[: i + 1])` if not
seen, appending its indented line. `seen_dirs` is a Python set read only
through membership, modelled as a list. -/
def dirLinesStep (parts : List String) (acc : List String × List String)
    (i : Nat) : List String × List String :=
  let dirPath := String.intercalate "/" (parts.take (i + 1))
  if acc.1.contains dirPath then acc
  else (acc.1 ++ [dirPath], acc.2 ++ [repeatStr "  " i ++ parts.getD i "" ++ "/"])

/-- `build_directory_tree` (github_client.py lines 48-69): a text
representation of the directory tree, two-space indentation, parent
directory lines inserted before their files, paths visited in sorted
order. Note: this renderer applies no line-count cap. -/
def build_directory_tree (paths : List String) : String :=
  if paths = [] then ""
  else
    let step := fun (acc : List String × List String) (path : String) =>
      let parts := splitSlash path
      let acc2 := (List.range (parts.length - 1)).foldl (dirLinesStep parts) acc
      (acc2.1, acc2.2 ++ [repeatStr "  " (parts.length - 1) ++ parts.getLastD ""])
    let res := (pySortedStrings paths).foldl step ([], [])
    String.intercalate "\n" res.2

/-- The nested-dict tree of `build_tree_string` (main.py lines 205-210):
a node holds its named children in insertion order (dict keys are unique by
construction). -/
inductive PTree where
  | node : List (String × PTree) → PTree

/-- Python truthiness `if node[name]:` of a child dict: non-empty means the
entry is a directory with children. -/
def PTree.isLeaf : PTree → Bool
  | .node cs => cs.isEmpty

/-- The insertion walk `node = node.setdefault(part, {})` (main.py lines
207-210): descend through existing children, appending a fresh chain for
the missing suffix. -/
def insertParts : PTree → List String → PTree
  | t, [] => t
  | .node cs, p :: rest =>
    if cs.any (fun kv => kv.1 == p) then
      .node (cs.map (fun kv => if kv.1 == p then (kv.1, insertParts kv.2 rest) else kv))
    else
      .node (cs ++ [(p, insertParts (.node []) rest)])

/-- Ordering of sibling entries by name, Python `sorted(node.keys())`. -/
def pairKeyLe (a b : String × PTree) : Prop := listLexLe a.1.data b.1.data = true

instance : DecidableRel pairKeyLe := fun a b => by unfold pairKeyLe; infer_instance

def sortPairs (cs : List (String × PTree)) : List (String × PTree) :=
  List.insertionSort pairKeyLe cs

/-- `_render` sorts each node's keys before walking them (main.py line 215);
here that per-node sort is hoisted into one recursive pass before
rendering, which is equivalent since rendering never mutates the tree. -/
def sortTree : PTree → PTree
  | .node cs => .node (sortPairs (cs.attach.map (fun kv => (kv.1.1, sortTree kv.1.2))))
decreasing_by
  have h1 := List.sizeOf_lt_of_mem kv.2
  cases hkv : kv.1
  simp [hkv] at h1 ⊢
  omega

mutual
/-- `_render` (main.py lines 214-222) on a tree whose sibling lists are
already sorted: emit one connector line per entry and recurse into
non-empty children with the extended line drawing primitives. -/
def renderLines : PTree → String → List String
  | .node cs, pre => renderEntries cs pre
/-- One level of `_render`: the last sibling gets the backquote connector
and a blank extension, earlier siblings the bar connector and extension. -/
def renderEntries : List (String × PTree) → String → List String
  | [], _ => []
  | [(name, t)], pre =>
    (pre ++ "`-- " ++ name)
      :: (if PTree.isLeaf t then [] else renderLines t (pre ++ "    "))
  | (name, t) :: rest, pre =>
    (pre ++ "|-- " ++ name)
      :: ((if PTree.isLeaf t then [] else renderLines t (pre ++ "|   "))
          ++ renderEntries rest pre)
end

/-- The tree built by main.py lines 205-210 from the sorted path list. -/
def buildTreeV1 (filePaths : List String) : PTree :=
  (pySortedStrings filePaths).foldl (fun t p => insertParts t (splitSlash p)) (.node [])

/-- The `lines` list of `build_tree_string` right before the cap
(main.py lines 212-224). -/
def buildTreeLinesV1 (filePaths : List String) : List String :=
  renderLines (sortTree (buildTreeV1 filePaths)) ""

/-- `build_tree_string` (main.py lines 203-228), including the cap at 200
lines with its summary line. -/
def build_tree_string (filePaths : List String) : String :=
  let lines := buildTreeLinesV1 filePaths
  if lines.length > 200 then
    String.intercalate "\n" (lines.take 200
      ++ ["... and " ++ toString (lines.length - 200) ++ " more entries"])
  else
    String.intercalate "\n" lines

/-- 202 distinct top-level filenames (one rendered line each), listed
already in sorted order. -/
def c6Paths : List String := (List.range 202).map (fun i => "f" ++ toString (100 + i))

set_option maxRecDepth 60000 in
set_option maxHeartbeats 1000000 in
/-- C6 counterexample: the application's tree renderer
`build_directory_tree` applies no 200-line cap: on 202 paths the output has
202 lines (201 newline characters) where the claim predicts at most 201
lines (200 kept lines plus one summary line), and no summary line is
appended. -/
theorem C6_counterexample :
    (build_directory_tree c6Paths).data.count '\n' = 201 ∧
    hasSub (build_directory_tree c6Paths) "more entries" = false := by
  constructor <;> decide

/-- C6 as amended: the v1 renderer `build_tree_string` caps its output at
200 lines, appending exactly one summary line whose count is exactly
`total_lines - 200` when the rendering exceeds the cap, and emits the
rendering unmodified otherwise; the capped line list never exceeds 201
lines. The application's renderer `build_directory_tree` applies no such
cap (see the counterexample). -/
theorem C6_cap_at_200_lines (filePaths : List String) :
    build_tree_string filePaths =
      (if 200 < (buildTreeLinesV1 filePaths).length then
        String.intercalate "\n" ((buildTreeLinesV1 filePaths).take 200
          ++ ["... and " ++ toString ((buildTreeLinesV1 filePaths).length - 200)
              ++ " more entries"])
      else String.intercalate "\n" (buildTreeLinesV1 filePaths)) ∧
    ((buildTreeLinesV1 filePaths).take 200
      ++ ["... and " ++ toString ((buildTreeLinesV1 filePaths).length - 200)
          ++ " more entries"]).length ≤ 201 := by
  constructor
  · rfl
  · rw [List.length_append, List.length_take]
    simp

/-! ### src/app/services/llm_summarizer.py : response validation
(summarize, lines 103-137) -/

/-- A value produced by Python `json.loads`: null, bool, number, string,
list or dict (an object is its final key-to-value association; `json.loads`
keeps the last value of a duplicated key, so keys are effectively unique). -/
inductive JValue where
  | null
  | bool (b : Bool)
  | num (n : Int)
  | str (s : String)
  | arr (elems : List JValue)
  | obj (fields : List (String × JValue))

/-- Python `s.strip()`: drop leading and trailing whitespace (space, tab,
carriage return, newline; Python also strips the rare form feed and
vertical tab, which none of the claims exercise). -/
def pyStrip (s : String) : String :=
  String.mk (((s.data.dropWhile Char.isWhitespace).reverse.dropWhile
    Char.isWhitespace).reverse)

/-- The fence stripping of summarize lines 107-114: strip whitespace; if the
content starts with a backquote fence, drop its first line (Python
`content.split("\\n", 1)[1]`) or, lacking a newline, the first three
characters; if it ends with a fence, drop the last three characters
(`content[:-3]`); strip again. -/
def stripFences (rawContent : String) : String :=
  let content := pyStrip rawContent
  let content :=
    if strStartsWith content "```" then
      if content.data.contains '\n' then
        String.mk ((content.data.dropWhile (fun c => c != '\n')).drop 1)
      else String.mk (content.data.drop 3)
    else content
  let content :=
    if strEndsWith content "```" then
      String.mk (content.data.take (content.data.length - 3))
    else content
  pyStrip content

/-- The required fields of summarize line 125 (a Python set literal, read
only through membership and difference). -/
def requiredFields : List String := ["summary", "technologies", "structure"]

/-- The keys of a parsed JSON object, Python `result.keys()`. -/
def jKeys (fields : List (String × JValue)) : List String := fields.map Prod.fst

/-- `required - set(result.keys())` (summarize line 126): the required
fields not present among the keys. -/
def missingOf (fields : List (String × JValue)) : List String :=
  requiredFields.filter (fun r => !(jKeys fields).contains r)

/-- Python dict lookup `result[k]` on a JSON object: the value of the last
occurrence of the key. -/
def jGet (fields : List (String × JValue)) (k : String) : Option JValue :=
  (fields.reverse.find? (fun kv => kv.1 == k)).map Prod.snd

/-- Python `list(x)` on a JSON-derived value (summarize line 135): lists
iterate to themselves, strings to their characters, dicts to their keys;
null, booleans and numbers are not iterable and raise `TypeError`. -/
def pyList : JValue → Option (List JValue)
  | .arr l => some l
  | .str s => some (s.data.map (fun c => .str (String.mk [c])))
  | .obj fs => some (fs.map (fun kv => .str kv.1))
  | _ => none

/-- Result of the post-response part of `summarize`: a successful summary
dict (`str(...)` on a JSON value never fails and its exact rendering is
irrelevant to the claims, so the summary and structure values are kept as
parsed), a raised `SummarizerError` carrying a message and status code, or
an uncaught Python exception escaping `summarize` (caught by the route's
generic handler as a 500, not as a `SummarizerError`). -/
inductive SummResult where
  | ok (summary : JValue) (technologies : List JValue) (structure_ : JValue)
  | summErr (message : String) (statusCode : Nat)
  | pyExn (exnName : String)

/-- summarize lines 107-137, with `json.loads` supplied as an oracle
(`parse content = none` models `json.JSONDecodeError`): strip fences,
parse, and validate. `result.keys()` exists only on a dict, so a parsed
non-object raises `AttributeError`; a missing required field raises
`SummarizerError` with status 502 (the message interpolates the missing
set, kept here as its fixed prefix); otherwise the three fields are read
and `list(result["technologies"])` may raise `TypeError`. -/
def summarizeParse (parse : String → Option JValue) (rawContent : String) :
    SummResult :=
  match parse (stripFences rawContent) with
  | none => .summErr "LLM returned malformed response. Please try again." 502
  | some (.obj fields) =>
    if missingOf fields ≠ [] then
      .summErr "LLM response missing fields" 502
    else
      match jGet fields "summary", jGet fields "technologies",
          jGet fields "structure" with
      | some s, some t, some st =>
        match pyList t with
        | some tl => .ok s tl st
        | none => .pyExn "TypeError"
      | _, _, _ => .pyExn "KeyError"
  | some _ => .pyExn "AttributeError"

/-- A parse oracle under which the text "[]" is valid JSON denoting the
empty array, as `json.loads` would parse it. -/
def arrayParse : String → Option JValue :=
  fun s => if s == "[]" then some (.arr []) else none

/-- C8 counterexample: backend output "[]" parses as JSON (an empty array)
and lacks all three required fields, yet the result is an uncaught
`AttributeError` from `result.keys()` — not the `SummarizerError` the
claim calls `DownstreamMalformed`. -/
theorem C8_counterexample :
    arrayParse (stripFences "[]") = some (.arr []) ∧
    summarizeParse arrayParse "[]" = .pyExn "AttributeError" := by
  constructor <;> rfl

/-- C8 as amended: non-JSON text yields the `DownstreamMalformed`
`SummarizerError` (502), a JSON object lacking a required field yields the
`DownstreamMalformed` `SummarizerError` (502), a successful result arises
only from a JSON object containing all three required fields — but a JSON
value that is not an object escapes as an uncaught `AttributeError`, which
the route maps to a generic 500, not to `DownstreamMalformed`. -/
theorem C8_malformed_output (parse : String → Option JValue)
    (rawContent : String) (v : Option JValue)
    (hv : parse (stripFences rawContent) = v) :
    (v = none → summarizeParse parse rawContent
      = .summErr "LLM returned malformed response. Please try again." 502) ∧
    (∀ fields, v = some (.obj fields) → missingOf fields ≠ [] →
      summarizeParse parse rawContent = .summErr "LLM response missing fields" 502) ∧
    (∀ j, v = some j → (∀ fields, j ≠ .obj fields) →
      summarizeParse parse rawContent = .pyExn "AttributeError") ∧
    (∀ s t st, summarizeParse parse rawContent = .ok s t st →
      ∃ fields, v = some (.obj fields) ∧ missingOf fields = []) := by
  refine ⟨?_, ?_, ?_, ?_⟩
  · rintro rfl
    unfold summarizeParse
    rw [hv]
  · rintro fields rfl hmiss
    unfold summarizeParse
    rw [hv]
    simp only
    rw [if_pos hmiss]
  · rintro j rfl hnotobj
    unfold summarizeParse
    rw [hv]
    cases j with
    | obj fields => exact absurd rfl (hnotobj fields)
    | null => rfl
    | bool b => rfl
    | num n => rfl
    | str s => rfl
    | arr l => rfl
  · intro s t st hok
    unfold summarizeParse at hok
    rw [hv] at hok
    cases v with
    | none => cases hok
    | some j =>
      cases j with
      | obj fields =>
        refine ⟨fields, rfl, ?_⟩
        by_cases hmiss : missingOf fields ≠ []
        · simp only at hok
          rw [if_pos hmiss] at hok
          cases hok
        · simpa using hmiss
      | null => cases hok
      | bool b => cases hok
      | num n => cases hok
      | str sv => cases hok
      | arr l => cases hok

/-- Witness for C8 at a concrete input: an oracle that parses nothing, and
the raw text "hi", exercising the non-JSON branch. -/
theorem C8_malformed_output_witness :
    ((none : Option JValue) = none → summarizeParse (fun _ => none) "hi"
      = .summErr "LLM returned malformed response. Please try again." 502) ∧
    (∀ fields, (none : Option JValue) = some (.obj fields) → missingOf fields ≠ [] →
      summarizeParse (fun _ => none) "hi"
        = .summErr "LLM response missing fields" 502) ∧
    (∀ j, (none : Option JValue) = some j → (∀ fields, j ≠ .obj fields) →
      summarizeParse (fun _ => none) "hi" = .pyExn "AttributeError") ∧
    (∀ s t st, summarizeParse (fun _ => none) "hi" = .ok s t st →
      ∃ fields, (none : Option JValue) = some (.obj fields) ∧ missingOf fields = []) :=
  C8_malformed_output (fun _ => none) "hi" none rfl
